import Mathlib

/-!
Verification of the cover-composition recipe of the nba_prediction repository.

The development shallowly embeds `frontpage-gen/generate_cover.py` (the
layering and geometry engine `generate_cover`, the resolver helper
`get_player_paths`) and `frontpage_gen/gcs_utils.py` (`download_from_gcs`).

Modelling conventions:
* Machine integers are `Nat`/`Int`.  Python `//` on ints is floor division
  and is modelled by `Int.fdiv`; Python `int(x)` on a float truncates toward
  zero and is modelled by `Int.tdiv` of exact integer arithmetic (for the
  non-negative cases plain `Nat` division, which is the same floor).
  Float literals such as `0.35`, `0.8`, `1.728` are modelled by their exact
  decimal values, so `int(n * 0.35)` becomes `n * 35 / 100` on `Nat`.
* File-system and network effects are abstracted into environment records:
  each asset path is mapped to the outcome of opening and decoding it
  (`Res.missing` for `FileNotFoundError`, `Res.err` for any other decoding
  exception, `Res.ok w h` for a successfully decoded image of the given
  pixel dimensions).  Decoded raster images always have positive
  dimensions; theorems carry the corresponding positivity hypotheses.
* Rasters produced by external renderers (the text renderer, the `rembg`
  segmenter) are abstracted by the dimensions of the image they return;
  those dimensions are inputs of the environment.
* Compositing onto the fixed-size canvas never changes the canvas size, so
  the canvas is represented by the list of placed layers (each with its
  geometry) plus the output parameters.  The per-pixel operations that the
  claims inspect (`crop_to_content`, the final flatten over white) are
  modelled separately at pixel level on `PixImg`.
-/

namespace NbaCover

/-- Outcome of `Image.open(path).convert("RGBA")` for one asset path:
the file is absent (`FileNotFoundError`), fails to decode (any other
exception), or decodes to an image of the given width and height. -/
inductive Res where
  | missing : Res
  | err : Res
  | ok : Nat → Nat → Res
deriving DecidableEq, Repr

/-- Outcome of processing one player path in step 4 of `generate_cover`:
`missing` models `FileNotFoundError` (raised by both the `rembg` read and
the fallback `Image.open`), `err` models any other exception escaping
`remove_background` (the file cannot be decoded at all), `rembgFail w h`
models `remove()` raising while the fallback `Image.open` succeeds (the
original, unsegmented image is used), and `ok w h` models a successful
segmentation.  The recorded dimensions are those of the image after
`crop_to_content`. -/
inductive PlayerRes where
  | missing : PlayerRes
  | err : PlayerRes
  | rembgFail : Nat → Nat → PlayerRes
  | ok : Nat → Nat → PlayerRes
deriving DecidableEq, Repr

/-- Which font object a text-rendering step ended up with. -/
inductive Font where
  | explicitFile : Font
  | stxingka : Font
  | builtin : Font
deriving DecidableEq, Repr

/-- File-system facts consulted by the title-font fallback chain in
step 6 of `generate_cover`: whether a caller-supplied `font_path` was
given, whether it exists and whether `ImageFont.truetype` succeeds on it,
and the same for the bundled `assets/STXINGKA.TTF`. -/
structure FontCfg where
  fontPathGiven : Bool
  fontPathExists : Bool
  fontPathLoads : Bool
  stxingkaExists : Bool
  stxingkaLoads : Bool
deriving DecidableEq, Repr

/-- The title-font fallback chain of `generate_cover` (step 6):
explicit `font_path` if given, existing and loadable; else the bundled
`STXINGKA.TTF` if existing and loadable; else `ImageFont.load_default()`. -/
def resolveTitleFont (f : FontCfg) : Font :=
  if f.fontPathGiven && f.fontPathExists && f.fontPathLoads then Font.explicitFile
  else if f.stxingkaExists && f.stxingkaLoads then Font.stxingka
  else Font.builtin

/-- Kind of a composited layer. -/
inductive Tag where
  | taiji : Tag
  | qimen : Tag
  | fog : Tag
  | circle : Tag
  | player : Tag
  | date : Tag
  | title : Tag
  | footer : Tag
deriving DecidableEq, Repr

/-- One `alpha_composite` call onto the canvas: the kind of layer, the
top-left corner passed to `alpha_composite`, the dimensions of the pasted
image, and bookkeeping recorded from the code path taken (`idx` is the
enumeration index for players, circles and title lines, `cell` the
nine-grid cell number for circles, `rotated` whether the `-90`-degree
rotation branch ran, `opacityPct` the `set_alpha` percentage applied,
`font` the font object used for text layers). -/
structure Layer where
  tag : Tag
  x : Int
  y : Int
  w : Nat
  h : Nat
  idx : Nat := 0
  cell : Int := 0
  rotated : Bool := false
  opacityPct : Nat := 100
  font : Option Font := none
deriving DecidableEq, Repr

/-- Environment of one `generate_cover` call: the outcome of every asset
path plus the abstracted renderer outputs.  `none` for an optional asset
means the corresponding `*_path` argument was `None`/empty. -/
structure Env where
  bg : Res
  taiji : Option Res := none
  qimen : Option Res := none
  fog : Option Res := none
  circle : Option Res := none
  circleCells : List Int := []
  players : List PlayerRes := []
  dateW : Nat := 1
  dateH : Nat := 1
  titleLines : List (Nat × Nat) := []
  fontCfg : FontCfg := ⟨false, false, false, false, false⟩
  footer : Option Res := none
deriving DecidableEq, Repr

/-- The saved output: the layers composited onto the canvas in order, the
canvas dimensions, and the JPEG quality passed to `save`. -/
structure Output where
  layers : List Layer
  width : Nat
  height : Nat
  quality : Nat
deriving DecidableEq, Repr

/-- Rounded division used by the thumbnail model (PIL rounds the scaled
edge to the nearest integer). -/
def rndiv (a b : Nat) : Nat := (2 * a + b) / (2 * b)

/-- Model of `PIL.Image.thumbnail((bound, bound))`: shrink-to-fit
preserving aspect, never upscaling; when shrinking, the constrained edge
becomes `bound` and the other edge is rounded and clamped to at least 1. -/
def thumbFit (w h bound : Nat) : Nat × Nat :=
  if w ≤ bound ∧ h ≤ bound then (w, h)
  else if w ≤ h then (max 1 (rndiv (bound * w) h), bound)
  else (bound, max 1 (rndiv (bound * h) w))

/-- Ring size as computed by the code (step 3.6):
`base_circle_size = int(min(cell_width, cell_height) * 0.8)` followed by
`circle_size = int(base_circle_size * 1.728)` — two separate truncations. -/
def ringSizeCode (cw ch : Nat) : Nat := min cw ch * 8 / 10 * 1728 / 1000

/-- Modelled from the spec: ring size as the specification words state it,
`floor(0.8 * min(cellWidth, cellHeight) * 1.728)` — a single truncation of
the full product.  Kept for comparison with `ringSizeCode`. -/
def ringSizeSpec (cw ch : Nat) : Nat := min cw ch * 13824 / 10000

/-- Step 2: the taiji overlay.  Missing file or decode error is caught and
the layer skipped; a zero-height image would raise `ZeroDivisionError`
computing the aspect, also caught.  Otherwise the image is resized to 35%
of the canvas height preserving aspect, set to 30% opacity, and placed
horizontally centred with its bottom 5% of the height above the bottom. -/
def taijiLayers (W H : Nat) (t : Option Res) : List Layer :=
  match t with
  | none => []
  | some Res.missing => []
  | some Res.err => []
  | some (Res.ok w h) =>
    if h = 0 then []
    else
      [{ tag := Tag.taiji,
         x := Int.fdiv ((W : Int) - (H * 35 / 100 * w / h : Nat)) 2,
         y := (H : Int) - (H * 35 / 100 : Nat) - (H * 5 / 100 : Nat),
         w := H * 35 / 100 * w / h,
         h := H * 35 / 100,
         opacityPct := 30 }]

/-- One iteration of the circle loop of step 3.6 for list index `i` and
cell number `c`: invalid cell numbers are skipped with a warning; a valid
cell gets the ring resized to `(s, s)`, the second list entry (`i = 1`)
additionally rotated by `-90` degrees with `expand=True` (which swaps the
dimensions) and force-resized back to `(s, s)` if that changed anything,
then set to 90% opacity and centred inside the cell. -/
def ringAux (qx qy : Int) (cw ch s : Nat) : Nat → List Int → List Layer
  | _, [] => []
  | i, c :: cs =>
    (if 1 ≤ c ∧ c ≤ 9 then
      let d0 : Nat × Nat := (s, s)
      let d1 : Nat × Nat :=
        if i = 1 then
          let dr : Nat × Nat := (d0.2, d0.1)
          if dr ≠ (s, s) then (s, s) else dr
        else d0
      let cellIdx : Int := c - 1
      [{ tag := Tag.circle,
         x := qx + (cellIdx % 3) * (cw : Int) + Int.fdiv ((cw : Int) - d1.1) 2,
         y := qy + (Int.fdiv cellIdx 3) * (ch : Int) + Int.fdiv ((ch : Int) - d1.2) 2,
         w := d1.1,
         h := d1.2,
         idx := i,
         cell := c,
         rotated := i == 1,
         opacityPct := 90 }]
    else []) ++ ringAux qx qy cw ch s (i + 1) cs

/-- Step 3.5: the fog image, stretched (non-aspect-preserving) to exactly
the placed qimen size, at 50% opacity, at the qimen position.  Missing or
undecodable fog is caught and skipped. -/
def fogLayers (qx qy : Int) (qw qh : Nat) (f : Option Res) : List Layer :=
  match f with
  | some (Res.ok _ _) =>
    [{ tag := Tag.fog, x := qx, y := qy, w := qw, h := qh, opacityPct := 50 }]
  | _ => []

/-- Step 3.6: the ring loop, run only when a circle path was given, its
file loads, and the highlight-cell list is non-empty (`if circle_path and
circle_cells:` — an empty list is falsy). -/
def circBlock (qx qy : Int) (qw qh : Nat) (co : Option Res) (cells : List Int) : List Layer :=
  match co with
  | some (Res.ok _ _) =>
    if cells = [] then []
    else ringAux qx qy (qw / 3) (qh / 3) (ringSizeCode (qw / 3) (qh / 3)) 0 cells
  | _ => []

/-- Step 3 with its nested steps 3.5 and 3.6: the qimen plate (white keyed
to transparent, contrast and sharpness enhanced — pixel transforms that do
not change the geometry), shrunk by `thumbnail` into a square of
`int(W * 0.5)`, placed centred and lifted by 9% of the height; then the
fog; then the rings.  Fog and rings run only when the qimen plate loaded,
mirroring the nesting of the `try` blocks. -/
def qimenBlock (W H : Nat) (env : Env) : List Layer :=
  match env.qimen with
  | none => []
  | some Res.missing => []
  | some Res.err => []
  | some (Res.ok w h) =>
    if h = 0 then []
    else
      let qd := thumbFit w h (W * 5 / 10)
      let qx : Int := Int.fdiv ((W : Int) - qd.1) 2
      let qy : Int := Int.fdiv ((H : Int) - qd.2) 2 - (H * 9 / 100 : Nat)
      { tag := Tag.qimen, x := qx, y := qy, w := qd.1, h := qd.2 }
        :: (fogLayers qx qy qd.1 qd.2 env.fog
            ++ circBlock qx qy qd.1 qd.2 env.circle env.circleCells)

/-- Step 4 for one player path at enumeration index `i`: a missing or
undecodable file is caught and skipped; otherwise the (possibly
unsegmented, see `PlayerRes.rembgFail`) image of dimensions `w × h` after
`crop_to_content` is resized to 36% of the canvas height preserving
aspect, feathered, and placed bottom-aligned, the first path with its left
edge at 1% of the width, later paths with `int(W * 0.99 - width)`.  A
zero-height image would raise `ZeroDivisionError`, caught and skipped. -/
def playerLayer (W H : Nat) (i : Nat) (p : PlayerRes) : List Layer :=
  match p with
  | PlayerRes.missing => []
  | PlayerRes.err => []
  | PlayerRes.rembgFail w h =>
    if h = 0 then []
    else
      [{ tag := Tag.player,
         x := if i = 0 then ((W / 100 : Nat) : Int)
              else Int.tdiv ((99 * W : Int) - 100 * (H * 36 / 100 * w / h : Nat)) 100,
         y := (H : Int) - (H * 36 / 100 : Nat),
         w := H * 36 / 100 * w / h,
         h := H * 36 / 100,
         idx := i }]
  | PlayerRes.ok w h =>
    if h = 0 then []
    else
      [{ tag := Tag.player,
         x := if i = 0 then ((W / 100 : Nat) : Int)
              else Int.tdiv ((99 * W : Int) - 100 * (H * 36 / 100 * w / h : Nat)) 100,
         y := (H : Int) - (H * 36 / 100 : Nat),
         w := H * 36 / 100 * w / h,
         h := H * 36 / 100,
         idx := i }]

/-- The whole of step 4: `for idx, player_path in enumerate(player_paths)`
starting at index `i`. -/
def playersLayers (W H : Nat) : Nat → List PlayerRes → List Layer
  | _, [] => []
  | i, p :: ps => playerLayer W H i p ++ playersLayers W H (i + 1) ps

/-- Step 5: the date label.  The font is always `ImageFont.load_default()`
(line 370 of the source); the rendered raster (auto-cropped by
`create_handwritten_text_image`, dimensions `dw × dh` abstracted into the
environment) is scaled by the fixed integer factor 3 and placed with its
top-left corner at `(int(W * 0.02), int(H * 0.02))`. -/
def dateLayer (W H dw dh : Nat) : Layer :=
  { tag := Tag.date,
    x := ((W * 2 / 100 : Nat) : Int),
    y := ((H * 2 / 100 : Nat) : Int),
    w := 3 * dw,
    h := 3 * dh,
    font := some Font.builtin }

/-- Step 6 body: each title line (rendered raster dimensions abstracted
into the environment) is horizontally centred using its own width and
stacked from `int(H * 0.095)` with a pitch of `font_size + 10 = 70 + 10`
between successive top edges, all lines sharing the resolved font. -/
def titleAux (W H : Nat) (f : Font) : Nat → List (Nat × Nat) → List Layer
  | _, [] => []
  | i, d :: ds =>
    { tag := Tag.title,
      x := Int.fdiv ((W : Int) - d.1) 2,
      y := ((H * 95 / 1000 + i * (70 + 10) : Nat) : Int),
      w := d.1,
      h := d.2,
      idx := i,
      font := some f } :: titleAux W H f (i + 1) ds

/-- Step 6: rendered only when at least one title line is given. -/
def titleLayers (W H : Nat) (cfg : FontCfg) (lines : List (Nat × Nat)) : List Layer :=
  if lines = [] then [] else titleAux W H (resolveTitleFont cfg) 0 lines

/-- Step 7: the footer, resized to 25% of the canvas width preserving
aspect, bottom-aligned 1% of the height above the bottom, horizontally
centred.  Missing or undecodable file is caught and skipped; a zero-width
image would raise `ZeroDivisionError` computing the aspect, also caught. -/
def footerLayers (W H : Nat) (t : Option Res) : List Layer :=
  match t with
  | some (Res.ok w h) =>
    if w = 0 then []
    else
      [{ tag := Tag.footer,
         x := Int.fdiv ((W : Int) - (W * 25 / 100 : Nat)) 2,
         y := (H : Int) - (W * 25 / 100 * h / w : Nat) - (H / 100 : Nat),
         w := W * 25 / 100,
         h := W * 25 / 100 * h / w }]
  | _ => []

/-- Those background outcomes on which step 1 returns without writing any
output: the file is absent or any exception occurs while loading it. -/
def resFails : Res → Bool
  | Res.missing => true
  | Res.err => true
  | Res.ok _ _ => false

/-- Whether an optional asset path was given but its file is absent or
undecodable. -/
def optFails : Option Res → Bool
  | some Res.missing => true
  | some Res.err => true
  | _ => false

/-- Whether a player path fails outright (file absent or undecodable even
by the fallback `Image.open`). -/
def playerFails : PlayerRes → Bool
  | PlayerRes.missing => true
  | PlayerRes.err => true
  | PlayerRes.rembgFail _ _ => false
  | PlayerRes.ok _ _ => false

/-- A decoded background has positive height (decoded rasters always do;
a zero-height value would make step 1 raise `ZeroDivisionError` computing
the aspect, which is caught and aborts like a decode error). -/
def bgDimsPos : Res → Bool
  | Res.ok _ h => h != 0
  | _ => true

/-- The compose operation, `generate_cover` of
`frontpage-gen/generate_cover.py`: step 1 loads the background, centre
crops it to the 2:3 target aspect and resizes it to exactly
`(W, H)`; a missing or undecodable background aborts the whole call with
no output file (`return` inside the two `except` arms).  All later steps
append layers to the canvas and never change its size.  Step 8 writes the
canvas flattened over white as a quality-95 JPEG. -/
def generate_cover (W H : Nat) (env : Env) : Option Output :=
  match env.bg with
  | Res.missing => none
  | Res.err => none
  | Res.ok _ bh =>
    if bh = 0 ∨ H = 0 then none
    else
      some
        { layers :=
            taijiLayers W H env.taiji
            ++ qimenBlock W H env
            ++ playersLayers W H 0 env.players
            ++ [dateLayer W H env.dateW env.dateH]
            ++ titleLayers W H env.fontCfg env.titleLines
            ++ footerLayers W H env.footer,
          width := W,
          height := H,
          quality := 95 }

/-- Layers of a possibly-absent output. -/
def layersOf (o : Option Output) : List Layer :=
  match o with
  | none => []
  | some out => out.layers

/-- The layers of a given kind, in compositing order. -/
def tagSel (o : Option Output) (t : Tag) : List Layer :=
  (layersOf o).filter (fun l => l.tag == t)

/-- How many layers of a given kind were composited. -/
def tagCount (o : Option Output) (t : Tag) : Nat := (tagSel o t).length

/-- How many layers of a given kind carry a given enumeration index. -/
def idxTagCount (o : Option Output) (t : Tag) (i : Nat) : Nat :=
  ((layersOf o).filter (fun l => l.tag == t && l.idx == i)).length

/-- Model of `get_player_paths`: the away slot is searched first, then the
home slot; a slot with no matching `{team}_*.png` file contributes no
entry, so the returned list is compacted (the uniform-random choice of one
file per team and the path join are abstracted; each resolved slot carries
the downstream processing outcome of its chosen file). -/
def get_player_paths (awayChoice homeChoice : Option PlayerRes) : List PlayerRes :=
  awayChoice.toList ++ homeChoice.toList

/-- `generate_cover` invoked on the player list built by
`get_player_paths`, as `app.py` and the `__main__` driver do. -/
def composeWithPlayers (W H : Nat) (env0 : Env)
    (awayChoice homeChoice : Option PlayerRes) : Option Output :=
  generate_cover W H { env0 with players := get_player_paths awayChoice homeChoice }

/-- An RGBA pixel: red, green, blue, alpha, each in 0..255. -/
structure Pix where
  r : Nat
  g : Nat
  b : Nat
  a : Nat
deriving DecidableEq, Repr

/-- An RGBA raster as a list of pixel rows. -/
structure PixImg where
  rows : List (List Pix)
deriving DecidableEq, Repr

/-- Whether a pixel row contains a non-transparent pixel. -/
def rowHasContent (row : List Pix) : Bool := row.any (fun p => p.a != 0)

/-- Whether the alpha channel of the image is identically zero. -/
def allTransparent (img : PixImg) : Bool :=
  img.rows.all (fun row => row.all (fun p => p.a == 0))

/-- Indices of rows containing a non-transparent pixel. -/
def contentRowIdx (img : PixImg) : List Nat :=
  (List.range img.rows.length).filter
    (fun i => rowHasContent ((img.rows.drop i).headD []))

/-- Indices of columns containing a non-transparent pixel. -/
def contentColIdx (img : PixImg) : List Nat :=
  img.rows.foldr
    (fun row acc =>
      ((List.range row.length).filter (fun j => ((row.drop j).headD ⟨0, 0, 0, 0⟩).a != 0))
      ++ acc)
    []

/-- Model of `alpha.getbbox()` in `crop_to_content`: the bounding box
`(left, upper, right, lower)` (right and lower exclusive) of the
non-transparent pixels, or `none` when the alpha channel is identically
zero. -/
def alphaBBox (img : PixImg) : Option (Nat × Nat × Nat × Nat) :=
  if allTransparent img then none
  else
    some ((contentColIdx img).foldr min ((contentColIdx img).headD 0),
          (contentRowIdx img).foldr min ((contentRowIdx img).headD 0),
          (contentColIdx img).foldr max 0 + 1,
          (contentRowIdx img).foldr max 0 + 1)

/-- Model of `img.crop((left, upper, right, lower))`. -/
def cropBox (img : PixImg) (left upper right lower : Nat) : PixImg :=
  ⟨((img.rows.drop upper).take (lower - upper)).map
     (fun row => (row.drop left).take (right - left))⟩

/-- `crop_to_content` of `generate_cover.py`: crop to the bounding box of
the non-transparent pixels; when there is none (`getbbox` returns `None`),
return the image unchanged. -/
def crop_to_content (img : PixImg) : PixImg :=
  match alphaBBox img with
  | none => img
  | some box => cropBox img box.1 box.2.1 box.2.2.1 box.2.2.2

/-- Step 8 of `generate_cover`: a fresh opaque white canvas of the same
size receives the finished RGBA canvas through `paste(..., mask=alpha)`,
so every output pixel blends the source over white by its alpha and the
result carries no transparency (mode RGB, modelled as alpha 255). -/
def flattenOverWhite (img : PixImg) : PixImg :=
  ⟨img.rows.map (fun row =>
    row.map (fun p =>
      ⟨(p.r * p.a + 255 * (255 - p.a) + 127) / 255,
       (p.g * p.a + 255 * (255 - p.a) + 127) / 255,
       (p.b * p.a + 255 * (255 - p.a) + 127) / 255,
       255⟩))⟩

/-- Observable state of the process-local download cache of
`gcs_utils.py`: the basenames already present in the cache directory, and
how many blob downloads have been performed. -/
structure Cache where
  entries : List (List Char)
  fetches : Nat
deriving DecidableEq, Repr

/-- `is_gcs_path`: whether the path starts with the five characters of
the remote scheme marker.  Paths are modelled as character lists. -/
def isGcsChars : List Char → Bool
  | 'g' :: 's' :: ':' :: '/' :: '/' :: _ => true
  | _ => false

/-- Python `path.replace` of the scheme marker by the empty string:
left-to-right removal of every non-overlapping occurrence. -/
def stripGs : List Char → List Char
  | 'g' :: 's' :: ':' :: '/' :: '/' :: rest => stripGs rest
  | c :: rest => c :: stripGs rest
  | [] => []

/-- Python `s.split("/", 1)`: `none` when the string holds no slash
(the code then raises `ValueError`), else the parts before and after the
first slash. -/
def splitFirstSlash : List Char → Option (List Char × List Char)
  | [] => none
  | '/' :: rest => some ([], rest)
  | c :: rest =>
    match splitFirstSlash rest with
    | none => none
    | some d => some (c :: d.1, d.2)

/-- `os.path.basename`: the part after the last slash. -/
def basenameChars (s : List Char) : List Char :=
  (s.reverse.takeWhile (fun c => c != '/')).reverse

/-- `download_from_gcs` of `gcs_utils.py` with the default
`local_filename=None`: a local path is returned unchanged without touching
the cache; a remote path is stripped of its scheme marker and split at the
first slash into bucket and blob path (`ValueError`, modelled as
`Except.error`, when there is none); the cache is keyed by the blob
basename — a basename already present is returned as a cache hit, else the
blob is downloaded once into the cache directory.  The lazily created
cache directory is the `cacheDir` parameter, fixed for the process. -/
def download_from_gcs (cacheDir gcsPath : List Char) (c : Cache) :
    Except (List Char) (List Char) × Cache :=
  if isGcsChars gcsPath = false then (Except.ok gcsPath, c)
  else
    match splitFirstSlash (stripGs gcsPath) with
    | none => (Except.error gcsPath, c)
    | some parts =>
      let fname := basenameChars parts.2
      let localPath := cacheDir ++ ('/' :: fname)
      if fname ∈ c.entries then (Except.ok localPath, c)
      else (Except.ok localPath, ⟨fname :: c.entries, c.fetches + 1⟩)

/-! ### Concrete environments used by witnesses and counterexamples -/

/-- Background and per-layer outcomes exercising the abort-iff and
skip clauses: decodable background, every optional asset failing. -/
def envFailSoft : Env :=
  { bg := Res.ok 800 1200,
    taiji := some Res.missing,
    qimen := some Res.err,
    fog := some Res.missing,
    circle := some Res.err,
    circleCells := [2, 4],
    players := [PlayerRes.missing],
    footer := some Res.missing }

/-- Environment refuting the claim that every caught per-layer failure
skips the layer: the first subject file is missing, the second decodes but
its background removal fails. -/
def envRembgKept : Env :=
  { bg := Res.ok 800 1200,
    players := [PlayerRes.missing, PlayerRes.rembgFail 250 552] }

/-- Base environment for the single-resolved-subject scenarios. -/
def envSoloBase : Env := { bg := Res.ok 800 1200 }

/-- Environment exhibiting the double truncation of the ring size. -/
def envRingSize : Env :=
  { bg := Res.ok 800 1200,
    qimen := some (Res.ok 21 21),
    circle := some (Res.ok 5 5),
    circleCells := [5] }

/-- Environment whose only subject has a failing background removal on a
file that still decodes. -/
def envRembgSolo : Env :=
  { bg := Res.ok 640 960, players := [PlayerRes.rembgFail 300 460] }

/-- Environment whose only subject file is missing. -/
def envSubjMissing : Env :=
  { bg := Res.ok 640 960, players := [PlayerRes.missing] }

/-- Environment in which the bundled hand-lettering font is resolvable. -/
def envFontAvail : Env :=
  { bg := Res.ok 800 1200, dateW := 40, dateH := 12,
    fontCfg := ⟨false, false, false, true, true⟩,
    titleLines := [(500, 80)] }

/-- Environment requesting rings on cells 2 and 4. -/
def envRings : Env :=
  { bg := Res.ok 800 1200,
    qimen := some (Res.ok 600 600),
    circle := some (Res.ok 64 64),
    circleCells := [2, 4] }

/-- Environment for the canvas-size witness. -/
def envCanvas : Env := { bg := Res.ok 512 768 }

/-- Raster with mixed alpha for the flatten witness. -/
def imgMixed : PixImg :=
  ⟨[[⟨200, 10, 10, 0⟩, ⟨0, 0, 0, 128⟩], [⟨40, 50, 60, 255⟩, ⟨1, 2, 3, 7⟩]]⟩

/-- Environment with two title lines of different rendered widths. -/
def envTitles : Env :=
  { bg := Res.ok 800 1200, titleLines := [(500, 80), (620, 90)] }

/-- Concrete remote reference for the materialization witness. -/
def gcsPathW : List Char :=
  ['g', 's', ':', '/', '/', 'b', 'k', 't', '/', 'p', 'l', '/', 'a', '.', 'p', 'n', 'g']

/-- Concrete local path for the materialization witness. -/
def localPathW : List Char := ['p', 'l', '/', 'a', '.', 'p', 'n', 'g']

/-- Concrete cache directory for the materialization witness. -/
def cacheDirW : List Char := ['/', 't', 'm', 'p', '/', 'c', 'g']

/-- Concrete fully transparent raster for the crop witness. -/
def imgBlank : PixImg :=
  ⟨[[⟨10, 20, 30, 0⟩, ⟨1, 2, 3, 0⟩], [⟨5, 5, 5, 0⟩, ⟨7, 8, 9, 0⟩]]⟩

/-! ### Structural lemmas about the layer pipeline -/

theorem mem_taijiLayers {W H : Nat} {t : Option Res} {l : Layer}
    (hl : l ∈ taijiLayers W H t) : l.tag = Tag.taiji := by
  match t with
  | none => simp [taijiLayers] at hl
  | some Res.missing => simp [taijiLayers] at hl
  | some Res.err => simp [taijiLayers] at hl
  | some (Res.ok w h) =>
    unfold taijiLayers at hl
    by_cases hh : h = 0
    · simp [hh] at hl
    · simp only [hh, if_false, List.mem_singleton] at hl
      rw [hl]

theorem mem_ringAux {qx qy : Int} {cw ch s : Nat} {i : Nat} {cs : List Int} {l : Layer}
    (hl : l ∈ ringAux qx qy cw ch s i cs) :
    l.tag = Tag.circle ∧ l.w = s ∧ l.h = s ∧ l.rotated = (l.idx == 1)
      ∧ 1 ≤ l.cell ∧ l.cell ≤ 9 ∧ i ≤ l.idx := by
  induction cs generalizing i with
  | nil => simp [ringAux] at hl
  | cons c cs ih =>
    unfold ringAux at hl
    rw [List.mem_append] at hl
    rcases hl with hl | hl
    · by_cases hc : 1 ≤ c ∧ c ≤ 9
      · rw [if_pos hc, List.mem_singleton] at hl
        subst hl
        by_cases hi : i = 1 <;>
          simp [hi, hc.1, hc.2]
      · rw [if_neg hc] at hl
        simp at hl
    · obtain ⟨h1, h2, h3, h4, h5, h6, h7⟩ := ih hl
      exact ⟨h1, h2, h3, h4, h5, h6, by omega⟩

theorem mem_fogLayers {qx qy : Int} {qw qh : Nat} {f : Option Res} {l : Layer}
    (hl : l ∈ fogLayers qx qy qw qh f) : l.tag = Tag.fog := by
  match f with
  | none => simp [fogLayers] at hl
  | some Res.missing => simp [fogLayers] at hl
  | some Res.err => simp [fogLayers] at hl
  | some (Res.ok w h) =>
    rw [fogLayers, List.mem_singleton] at hl
    rw [hl]

theorem mem_circBlock {qx qy : Int} {qw qh : Nat} {co : Option Res} {cells : List Int}
    {l : Layer} (hl : l ∈ circBlock qx qy qw qh co cells) :
    l.tag = Tag.circle ∧ l.w = ringSizeCode (qw / 3) (qh / 3)
      ∧ l.h = ringSizeCode (qw / 3) (qh / 3) ∧ l.rotated = (l.idx == 1)
      ∧ 1 ≤ l.cell ∧ l.cell ≤ 9 := by
  match co with
  | none => simp [circBlock] at hl
  | some Res.missing => simp [circBlock] at hl
  | some Res.err => simp [circBlock] at hl
  | some (Res.ok cw0 ch0) =>
    unfold circBlock at hl
    by_cases hcl : cells = []
    · simp [hcl] at hl
    · rw [if_neg hcl] at hl
      obtain ⟨h1, h2, h3, h4, h5, h6, _⟩ := mem_ringAux hl
      exact ⟨h1, h2, h3, h4, h5, h6⟩

theorem mem_qimenBlock {W H : Nat} {env : Env} {l : Layer}
    (hl : l ∈ qimenBlock W H env) :
    l.tag = Tag.qimen ∨ l.tag = Tag.fog ∨ l.tag = Tag.circle := by
  unfold qimenBlock at hl
  match hq : env.qimen with
  | none => rw [hq] at hl; simp at hl
  | some Res.missing => rw [hq] at hl; simp at hl
  | some Res.err => rw [hq] at hl; simp at hl
  | some (Res.ok w h) =>
    rw [hq] at hl
    by_cases hh : h = 0
    · simp [hh] at hl
    · simp only [hh, if_false, List.mem_cons, List.mem_append] at hl
      rcases hl with hl | hl | hl
      · left; rw [hl]
      · right; left; exact mem_fogLayers hl
      · right; right; exact (mem_circBlock hl).1

theorem mem_playerLayer {W H i : Nat} {p : PlayerRes} {l : Layer}
    (hl : l ∈ playerLayer W H i p) : l.tag = Tag.player ∧ l.idx = i := by
  match p with
  | PlayerRes.missing => simp [playerLayer] at hl
  | PlayerRes.err => simp [playerLayer] at hl
  | PlayerRes.rembgFail w h =>
    unfold playerLayer at hl
    by_cases hh : h = 0
    · simp [hh] at hl
    · simp only [hh, if_false, List.mem_singleton] at hl
      rw [hl]; exact ⟨rfl, rfl⟩
  | PlayerRes.ok w h =>
    unfold playerLayer at hl
    by_cases hh : h = 0
    · simp [hh] at hl
    · simp only [hh, if_false, List.mem_singleton] at hl
      rw [hl]; exact ⟨rfl, rfl⟩

theorem mem_playersLayers {W H : Nat} {ps : List PlayerRes} {n : Nat} {l : Layer}
    (hl : l ∈ playersLayers W H n ps) : l.tag = Tag.player ∧ n ≤ l.idx := by
  induction ps generalizing n with
  | nil => simp [playersLayers] at hl
  | cons p ps ih =>
    unfold playersLayers at hl
    rw [List.mem_append] at hl
    rcases hl with hl | hl
    · obtain ⟨h1, h2⟩ := mem_playerLayer hl
      exact ⟨h1, by omega⟩
    · obtain ⟨h1, h2⟩ := ih hl
      exact ⟨h1, by omega⟩

theorem mem_titleAux {W H : Nat} {f : Font} {i : Nat} {ds : List (Nat × Nat)} {l : Layer}
    (hl : l ∈ titleAux W H f i ds) : l.tag = Tag.title := by
  induction ds generalizing i with
  | nil => simp [titleAux] at hl
  | cons d ds ih =>
    unfold titleAux at hl
    rw [List.mem_cons] at hl
    rcases hl with hl | hl
    · rw [hl]
    · exact ih hl

theorem mem_titleLayers {W H : Nat} {cfg : FontCfg} {lines : List (Nat × Nat)} {l : Layer}
    (hl : l ∈ titleLayers W H cfg lines) : l.tag = Tag.title := by
  unfold titleLayers at hl
  by_cases hc : lines = []
  · simp [hc] at hl
  · rw [if_neg hc] at hl
    exact mem_titleAux hl

theorem mem_footerLayers {W H : Nat} {t : Option Res} {l : Layer}
    (hl : l ∈ footerLayers W H t) : l.tag = Tag.footer := by
  match t with
  | none => simp [footerLayers] at hl
  | some Res.missing => simp [footerLayers] at hl
  | some Res.err => simp [footerLayers] at hl
  | some (Res.ok w h) =>
    unfold footerLayers at hl
    by_cases hw : w = 0
    · simp [hw] at hl
    · simp only [hw, if_false, List.mem_singleton] at hl
      rw [hl]

theorem filter_tag_nil (ls : List Layer) (t : Tag)
    (h : ∀ l ∈ ls, l.tag ≠ t) : ls.filter (fun l => l.tag == t) = [] := by
  rw [List.filter_eq_nil_iff]
  intro l hl
  simp only [beq_iff_eq]
  exact h l hl

theorem filter_tagidx_nil (ls : List Layer) (t : Tag) (i : Nat)
    (h : ∀ l ∈ ls, l.tag ≠ t) :
    ls.filter (fun l => l.tag == t && l.idx == i) = [] := by
  rw [List.filter_eq_nil_iff]
  intro l hl
  simp only [Bool.and_eq_true, beq_iff_eq, not_and]
  intro hc
  exact absurd hc (h l hl)

/-- A successfully loaded background with positive dimensions makes
`generate_cover` write an output whose layer list is the concatenation of
the six steps. -/
theorem layersOf_generate (W H : Nat) (env : Env) (bw bh : Nat)
    (hbg : env.bg = Res.ok bw bh) (hbh : bh ≠ 0) (hH : H ≠ 0) :
    generate_cover W H env = some
      { layers :=
          taijiLayers W H env.taiji ++ qimenBlock W H env
          ++ playersLayers W H 0 env.players ++ [dateLayer W H env.dateW env.dateH]
          ++ titleLayers W H env.fontCfg env.titleLines ++ footerLayers W H env.footer,
        width := W, height := H, quality := 95 } := by
  unfold generate_cover
  rw [hbg]
  simp [hbh, hH]

/-- Per-kind selection distributes over the six steps. -/
theorem tagSel_eq (W H : Nat) (env : Env) (bw bh : Nat)
    (hbg : env.bg = Res.ok bw bh) (hbh : bh ≠ 0) (hH : H ≠ 0) (t : Tag) :
    tagSel (generate_cover W H env) t =
      (taijiLayers W H env.taiji).filter (fun l => l.tag == t)
      ++ (qimenBlock W H env).filter (fun l => l.tag == t)
      ++ (playersLayers W H 0 env.players).filter (fun l => l.tag == t)
      ++ ([dateLayer W H env.dateW env.dateH]).filter (fun l => l.tag == t)
      ++ (titleLayers W H env.fontCfg env.titleLines).filter (fun l => l.tag == t)
      ++ (footerLayers W H env.footer).filter (fun l => l.tag == t) := by
  rw [tagSel, layersOf_generate W H env bw bh hbg hbh hH]
  simp only [layersOf, List.filter_append, List.filter_cons]

/-- The player-kind selection comes entirely from step 4. -/
theorem tagSel_player (W H : Nat) (env : Env) (bw bh : Nat)
    (hbg : env.bg = Res.ok bw bh) (hbh : bh ≠ 0) (hH : H ≠ 0) :
    tagSel (generate_cover W H env) Tag.player =
      (playersLayers W H 0 env.players).filter (fun l => l.tag == Tag.player) := by
  rw [tagSel_eq W H env bw bh hbg hbh hH Tag.player]
  rw [filter_tag_nil (taijiLayers W H env.taiji) Tag.player
    (fun l hl => by simp [mem_taijiLayers hl])]
  rw [filter_tag_nil (qimenBlock W H env) Tag.player
    (fun l hl => by rcases mem_qimenBlock hl with h | h | h <;> simp [h])]
  rw [filter_tag_nil [dateLayer W H env.dateW env.dateH] Tag.player
    (fun l hl => by rw [List.mem_singleton] at hl; rw [hl]; simp [dateLayer])]
  rw [filter_tag_nil (titleLayers W H env.fontCfg env.titleLines) Tag.player
    (fun l hl => by simp [mem_titleLayers hl])]
  rw [filter_tag_nil (footerLayers W H env.footer) Tag.player
    (fun l hl => by simp [mem_footerLayers hl])]
  simp

/-- The title-kind selection comes entirely from step 6. -/
theorem tagSel_title (W H : Nat) (env : Env) (bw bh : Nat)
    (hbg : env.bg = Res.ok bw bh) (hbh : bh ≠ 0) (hH : H ≠ 0) :
    tagSel (generate_cover W H env) Tag.title =
      (titleLayers W H env.fontCfg env.titleLines).filter (fun l => l.tag == Tag.title) := by
  rw [tagSel_eq W H env bw bh hbg hbh hH Tag.title]
  rw [filter_tag_nil (taijiLayers W H env.taiji) Tag.title
    (fun l hl => by simp [mem_taijiLayers hl])]
  rw [filter_tag_nil (qimenBlock W H env) Tag.title
    (fun l hl => by rcases mem_qimenBlock hl with h | h | h <;> simp [h])]
  rw [filter_tag_nil (playersLayers W H 0 env.players) Tag.title
    (fun l hl => by simp [(mem_playersLayers hl).1])]
  rw [filter_tag_nil [dateLayer W H env.dateW env.dateH] Tag.title
    (fun l hl => by rw [List.mem_singleton] at hl; rw [hl]; simp [dateLayer])]
  rw [filter_tag_nil (footerLayers W H env.footer) Tag.title
    (fun l hl => by simp [mem_footerLayers hl])]
  simp

/-- The date-kind selection is exactly the step 5 singleton. -/
theorem tagSel_date (W H : Nat) (env : Env) (bw bh : Nat)
    (hbg : env.bg = Res.ok bw bh) (hbh : bh ≠ 0) (hH : H ≠ 0) :
    tagSel (generate_cover W H env) Tag.date = [dateLayer W H env.dateW env.dateH] := by
  rw [tagSel_eq W H env bw bh hbg hbh hH Tag.date]
  rw [filter_tag_nil (taijiLayers W H env.taiji) Tag.date
    (fun l hl => by simp [mem_taijiLayers hl])]
  rw [filter_tag_nil (qimenBlock W H env) Tag.date
    (fun l hl => by rcases mem_qimenBlock hl with h | h | h <;> simp [h])]
  rw [filter_tag_nil (playersLayers W H 0 env.players) Tag.date
    (fun l hl => by simp [(mem_playersLayers hl).1])]
  rw [filter_tag_nil (titleLayers W H env.fontCfg env.titleLines) Tag.date
    (fun l hl => by simp [mem_titleLayers hl])]
  rw [filter_tag_nil (footerLayers W H env.footer) Tag.date
    (fun l hl => by simp [mem_footerLayers hl])]
  simp [dateLayer]

/-- The circle-kind selection comes entirely from step 3.6. -/
theorem tagSel_circle (W H : Nat) (env : Env) (bw bh : Nat)
    (hbg : env.bg = Res.ok bw bh) (hbh : bh ≠ 0) (hH : H ≠ 0) :
    tagSel (generate_cover W H env) Tag.circle =
      (qimenBlock W H env).filter (fun l => l.tag == Tag.circle) := by
  rw [tagSel_eq W H env bw bh hbg hbh hH Tag.circle]
  rw [filter_tag_nil (taijiLayers W H env.taiji) Tag.circle
    (fun l hl => by simp [mem_taijiLayers hl])]
  rw [filter_tag_nil (playersLayers W H 0 env.players) Tag.circle
    (fun l hl => by simp [(mem_playersLayers hl).1])]
  rw [filter_tag_nil [dateLayer W H env.dateW env.dateH] Tag.circle
    (fun l hl => by rw [List.mem_singleton] at hl; rw [hl]; simp [dateLayer])]
  rw [filter_tag_nil (titleLayers W H env.fontCfg env.titleLines) Tag.circle
    (fun l hl => by simp [mem_titleLayers hl])]
  rw [filter_tag_nil (footerLayers W H env.footer) Tag.circle
    (fun l hl => by simp [mem_footerLayers hl])]
  simp

/-- The qimen-kind selection comes entirely from step 3. -/
theorem tagSel_qimen (W H : Nat) (env : Env) (bw bh : Nat)
    (hbg : env.bg = Res.ok bw bh) (hbh : bh ≠ 0) (hH : H ≠ 0) :
    tagSel (generate_cover W H env) Tag.qimen =
      (qimenBlock W H env).filter (fun l => l.tag == Tag.qimen) := by
  rw [tagSel_eq W H env bw bh hbg hbh hH Tag.qimen]
  rw [filter_tag_nil (taijiLayers W H env.taiji) Tag.qimen
    (fun l hl => by simp [mem_taijiLayers hl])]
  rw [filter_tag_nil (playersLayers W H 0 env.players) Tag.qimen
    (fun l hl => by simp [(mem_playersLayers hl).1])]
  rw [filter_tag_nil [dateLayer W H env.dateW env.dateH] Tag.qimen
    (fun l hl => by rw [List.mem_singleton] at hl; rw [hl]; simp [dateLayer])]
  rw [filter_tag_nil (titleLayers W H env.fontCfg env.titleLines) Tag.qimen
    (fun l hl => by simp [mem_titleLayers hl])]
  rw [filter_tag_nil (footerLayers W H env.footer) Tag.qimen
    (fun l hl => by simp [mem_footerLayers hl])]
  simp

/-- The taiji-kind selection comes entirely from step 2. -/
theorem tagSel_taiji (W H : Nat) (env : Env) (bw bh : Nat)
    (hbg : env.bg = Res.ok bw bh) (hbh : bh ≠ 0) (hH : H ≠ 0) :
    tagSel (generate_cover W H env) Tag.taiji = taijiLayers W H env.taiji := by
  rw [tagSel_eq W H env bw bh hbg hbh hH Tag.taiji]
  rw [filter_tag_nil (qimenBlock W H env) Tag.taiji
    (fun l hl => by rcases mem_qimenBlock hl with h | h | h <;> simp [h])]
  rw [filter_tag_nil (playersLayers W H 0 env.players) Tag.taiji
    (fun l hl => by simp [(mem_playersLayers hl).1])]
  rw [filter_tag_nil [dateLayer W H env.dateW env.dateH] Tag.taiji
    (fun l hl => by rw [List.mem_singleton] at hl; rw [hl]; simp [dateLayer])]
  rw [filter_tag_nil (titleLayers W H env.fontCfg env.titleLines) Tag.taiji
    (fun l hl => by simp [mem_titleLayers hl])]
  rw [filter_tag_nil (footerLayers W H env.footer) Tag.taiji
    (fun l hl => by simp [mem_footerLayers hl])]
  simp only [List.append_nil, List.nil_append]
  rw [List.filter_eq_self]
  intro l hl
  simp [mem_taijiLayers hl]

/-- The fog-kind selection comes entirely from step 3.5. -/
theorem tagSel_fog (W H : Nat) (env : Env) (bw bh : Nat)
    (hbg : env.bg = Res.ok bw bh) (hbh : bh ≠ 0) (hH : H ≠ 0) :
    tagSel (generate_cover W H env) Tag.fog =
      (qimenBlock W H env).filter (fun l => l.tag == Tag.fog) := by
  rw [tagSel_eq W H env bw bh hbg hbh hH Tag.fog]
  rw [filter_tag_nil (taijiLayers W H env.taiji) Tag.fog
    (fun l hl => by simp [mem_taijiLayers hl])]
  rw [filter_tag_nil (playersLayers W H 0 env.players) Tag.fog
    (fun l hl => by simp [(mem_playersLayers hl).1])]
  rw [filter_tag_nil [dateLayer W H env.dateW env.dateH] Tag.fog
    (fun l hl => by rw [List.mem_singleton] at hl; rw [hl]; simp [dateLayer])]
  rw [filter_tag_nil (titleLayers W H env.fontCfg env.titleLines) Tag.fog
    (fun l hl => by simp [mem_titleLayers hl])]
  rw [filter_tag_nil (footerLayers W H env.footer) Tag.fog
    (fun l hl => by simp [mem_footerLayers hl])]
  simp

/-- The footer-kind selection comes entirely from step 7. -/
theorem tagSel_footer (W H : Nat) (env : Env) (bw bh : Nat)
    (hbg : env.bg = Res.ok bw bh) (hbh : bh ≠ 0) (hH : H ≠ 0) :
    tagSel (generate_cover W H env) Tag.footer = footerLayers W H env.footer := by
  rw [tagSel_eq W H env bw bh hbg hbh hH Tag.footer]
  rw [filter_tag_nil (taijiLayers W H env.taiji) Tag.footer
    (fun l hl => by simp [mem_taijiLayers hl])]
  rw [filter_tag_nil (qimenBlock W H env) Tag.footer
    (fun l hl => by rcases mem_qimenBlock hl with h | h | h <;> simp [h])]
  rw [filter_tag_nil (playersLayers W H 0 env.players) Tag.footer
    (fun l hl => by simp [(mem_playersLayers hl).1])]
  rw [filter_tag_nil [dateLayer W H env.dateW env.dateH] Tag.footer
    (fun l hl => by rw [List.mem_singleton] at hl; rw [hl]; simp [dateLayer])]
  rw [filter_tag_nil (titleLayers W H env.fontCfg env.titleLines) Tag.footer
    (fun l hl => by simp [mem_titleLayers hl])]
  simp only [List.append_nil, List.nil_append]
  rw [List.filter_eq_self]
  intro l hl
  simp [mem_footerLayers hl]

/-- Player-index selection comes entirely from step 4. -/
theorem idxSel_player (W H : Nat) (env : Env) (bw bh : Nat)
    (hbg : env.bg = Res.ok bw bh) (hbh : bh ≠ 0) (hH : H ≠ 0) (i : Nat) :
    (layersOf (generate_cover W H env)).filter
        (fun l => l.tag == Tag.player && l.idx == i)
      = (playersLayers W H 0 env.players).filter
          (fun l => l.tag == Tag.player && l.idx == i) := by
  rw [layersOf_generate W H env bw bh hbg hbh hH]
  simp only [layersOf, List.filter_append, List.filter_cons]
  rw [filter_tagidx_nil (taijiLayers W H env.taiji) Tag.player i
    (fun l hl => by simp [mem_taijiLayers hl])]
  rw [filter_tagidx_nil (qimenBlock W H env) Tag.player i
    (fun l hl => by rcases mem_qimenBlock hl with h | h | h <;> simp [h])]
  rw [filter_tagidx_nil (titleLayers W H env.fontCfg env.titleLines) Tag.player i
    (fun l hl => by simp [mem_titleLayers hl])]
  rw [filter_tagidx_nil (footerLayers W H env.footer) Tag.player i
    (fun l hl => by simp [mem_footerLayers hl])]
  simp [dateLayer]

/-- A failing optional path contributes no taiji layer. -/
theorem taijiLayers_fail (W H : Nat) (t : Option Res) (hf : optFails t = true) :
    taijiLayers W H t = [] := by
  match t with
  | none => rfl
  | some Res.missing => rfl
  | some Res.err => rfl
  | some (Res.ok w h) => simp [optFails] at hf

/-- A failing qimen path skips step 3 and its nested steps entirely. -/
theorem qimenBlock_fail (W H : Nat) (env : Env) (hf : optFails env.qimen = true) :
    qimenBlock W H env = [] := by
  unfold qimenBlock
  match hq : env.qimen with
  | none => rfl
  | some Res.missing => rfl
  | some Res.err => rfl
  | some (Res.ok w h) => rw [hq] at hf; simp [optFails] at hf

/-- A failing fog path contributes no fog layer. -/
theorem fogLayers_fail (qx qy : Int) (qw qh : Nat) (f : Option Res)
    (hf : optFails f = true) : fogLayers qx qy qw qh f = [] := by
  match f with
  | none => rfl
  | some Res.missing => rfl
  | some Res.err => rfl
  | some (Res.ok w h) => simp [optFails] at hf

/-- A failing circle path contributes no ring layer. -/
theorem circBlock_fail (qx qy : Int) (qw qh : Nat) (co : Option Res) (cells : List Int)
    (hf : optFails co = true) : circBlock qx qy qw qh co cells = [] := by
  match co with
  | none => rfl
  | some Res.missing => rfl
  | some Res.err => rfl
  | some (Res.ok w h) => simp [optFails] at hf

/-- A failing fog path leaves no fog layer anywhere in step 3. -/
theorem qimenBlock_fog_fail (W H : Nat) (env : Env) (hf : optFails env.fog = true) :
    (qimenBlock W H env).filter (fun l => l.tag == Tag.fog) = [] := by
  unfold qimenBlock
  match hq : env.qimen with
  | none => rfl
  | some Res.missing => rfl
  | some Res.err => rfl
  | some (Res.ok w h) =>
    by_cases hh : h = 0
    · simp [hh]
    · simp only [hh, if_false]
      rw [fogLayers_fail _ _ _ _ _ hf]
      simp only [List.nil_append, List.filter_cons, List.filter_append]
      rw [filter_tag_nil _ Tag.fog (fun l hl => by simp [(mem_circBlock hl).1])]
      simp

/-- A failing circle path leaves no ring layer anywhere in step 3. -/
theorem qimenBlock_circ_fail (W H : Nat) (env : Env) (hf : optFails env.circle = true) :
    (qimenBlock W H env).filter (fun l => l.tag == Tag.circle) = [] := by
  unfold qimenBlock
  match hq : env.qimen with
  | none => rfl
  | some Res.missing => rfl
  | some Res.err => rfl
  | some (Res.ok w h) =>
    by_cases hh : h = 0
    · simp [hh]
    · simp only [hh, if_false]
      rw [circBlock_fail _ _ _ _ _ _ hf]
      simp only [List.append_nil, List.filter_cons, List.filter_append]
      rw [filter_tag_nil _ Tag.circle (fun l hl => by simp [mem_fogLayers hl])]
      simp

/-- A failing footer path contributes no footer layer. -/
theorem footerLayers_fail (W H : Nat) (t : Option Res) (hf : optFails t = true) :
    footerLayers W H t = [] := by
  match t with
  | none => rfl
  | some Res.missing => rfl
  | some Res.err => rfl
  | some (Res.ok w h) => simp [optFails] at hf

/-- An outright-failing player path contributes no layer. -/
theorem playerLayer_fail (W H i : Nat) (p : PlayerRes) (hf : playerFails p = true) :
    playerLayer W H i p = [] := by
  match p with
  | PlayerRes.missing => rfl
  | PlayerRes.err => rfl
  | PlayerRes.rembgFail w h => simp [playerFails] at hf
  | PlayerRes.ok w h => simp [playerFails] at hf

/-- The layer of the k-th player path is absent when that path fails. -/
theorem playersLayers_fail_idx (W H : Nat) (ps : List PlayerRes) (n k : Nat) (p : PlayerRes)
    (hget : ps.get? k = some p) (hf : playerFails p = true) :
    (playersLayers W H n ps).filter
      (fun l => l.tag == Tag.player && l.idx == (n + k)) = [] := by
  induction ps generalizing n k with
  | nil => simp at hget
  | cons q qs ih =>
    unfold playersLayers
    rw [List.filter_append]
    match k with
    | 0 =>
      have hq : q = p := by simpa using hget
      rw [hq, playerLayer_fail W H n p hf]
      have htail : (playersLayers W H (n + 1) qs).filter
          (fun l => l.tag == Tag.player && l.idx == (n + 0)) = [] := by
        rw [List.filter_eq_nil_iff]
        intro l hl
        have h2 := (mem_playersLayers hl).2
        simp only [Bool.and_eq_true, beq_iff_eq, not_and]
        intro _ hcon
        omega
      rw [htail]
      simp
    | k + 1 =>
      have hget2 : qs.get? k = some p := by simpa using hget
      have hhead : (playerLayer W H n q).filter
          (fun l => l.tag == Tag.player && l.idx == (n + (k + 1))) = [] := by
        rw [List.filter_eq_nil_iff]
        intro l hl
        have h2 := (mem_playerLayer hl).2
        simp only [Bool.and_eq_true, beq_iff_eq, not_and]
        intro _ hcon
        omega
      rw [hhead]
      have hstep : n + 1 + k = n + (k + 1) := by omega
      have := ih (n + 1) k hget2
      rw [hstep] at this
      rw [this]
      simp

/-- The layer of the k-th player path when `rembg` failed but the file
decodes: the original image is used and the layer is present. -/
theorem playersLayers_rembg_idx (W H : Nat) (ps : List PlayerRes) (n k pw0 ph0 : Nat)
    (hget : ps.get? k = some (PlayerRes.rembgFail pw0 ph0)) (hph : ph0 ≠ 0) :
    (playersLayers W H n ps).filter
      (fun l => l.tag == Tag.player && l.idx == (n + k))
      = playerLayer W H (n + k) (PlayerRes.rembgFail pw0 ph0) := by
  induction ps generalizing n k with
  | nil => simp at hget
  | cons q qs ih =>
    unfold playersLayers
    rw [List.filter_append]
    match k with
    | 0 =>
      have hq : q = PlayerRes.rembgFail pw0 ph0 := by simpa using hget
      have htail : (playersLayers W H (n + 1) qs).filter
          (fun l => l.tag == Tag.player && l.idx == (n + 0)) = [] := by
        rw [List.filter_eq_nil_iff]
        intro l hl
        have h2 := (mem_playersLayers hl).2
        simp only [Bool.and_eq_true, beq_iff_eq, not_and]
        intro _ hcon
        omega
      rw [hq, htail]
      simp [playerLayer, hph]
    | k + 1 =>
      have hget2 : qs.get? k = some (PlayerRes.rembgFail pw0 ph0) := by simpa using hget
      have hhead : (playerLayer W H n q).filter
          (fun l => l.tag == Tag.player && l.idx == (n + (k + 1))) = [] := by
        rw [List.filter_eq_nil_iff]
        intro l hl
        have h2 := (mem_playerLayer hl).2
        simp only [Bool.and_eq_true, beq_iff_eq, not_and]
        intro _ hcon
        omega
      rw [hhead]
      have hstep : n + 1 + k = n + (k + 1) := by omega
      have := ih (n + 1) k hget2
      rw [hstep] at this
      rw [this]
      simp

/-! ### Theorems -/

/-- C1 (amended): composition aborts with no output file exactly when the
mandatory background is absent or undecodable; every per-layer failure of
steps 2-9 is caught and composition still writes a complete output, and
the failing layer is skipped — except that a failed background removal on
a subject file that still decodes composites the original image instead of
skipping the subject layer. -/
theorem compose_abort_iff_fail_soft (W H : Nat) (env : Env) (i pw0 ph0 : Nat)
    (hbg : bgDimsPos env.bg = true) (hH : H ≠ 0) :
    (generate_cover W H env = none ↔ resFails env.bg = true)
  ∧ (optFails env.taiji = true → tagCount (generate_cover W H env) Tag.taiji = 0)
  ∧ (optFails env.qimen = true →
      tagCount (generate_cover W H env) Tag.qimen = 0
      ∧ tagCount (generate_cover W H env) Tag.fog = 0
      ∧ tagCount (generate_cover W H env) Tag.circle = 0)
  ∧ (optFails env.fog = true → tagCount (generate_cover W H env) Tag.fog = 0)
  ∧ (optFails env.circle = true → tagCount (generate_cover W H env) Tag.circle = 0)
  ∧ (optFails env.footer = true → tagCount (generate_cover W H env) Tag.footer = 0)
  ∧ (env.players.get? i = some PlayerRes.missing ∨ env.players.get? i = some PlayerRes.err →
      idxTagCount (generate_cover W H env) Tag.player i = 0)
  ∧ (resFails env.bg = false →
      env.players.get? i = some (PlayerRes.rembgFail pw0 ph0) → ph0 ≠ 0 →
      idxTagCount (generate_cover W H env) Tag.player i = 1) := by
  match hb : env.bg with
  | Res.missing =>
    have hgen : generate_cover W H env = none := by
      unfold generate_cover
      rw [hb]
    refine ⟨by rw [hgen]; simp [resFails], ?_, ?_, ?_, ?_, ?_, ?_, ?_⟩
    · intro _; rw [hgen]; rfl
    · intro _; rw [hgen]; exact ⟨rfl, rfl, rfl⟩
    · intro _; rw [hgen]; rfl
    · intro _; rw [hgen]; rfl
    · intro _; rw [hgen]; rfl
    · intro _; rw [hgen]; rfl
    · intro hc; simp [resFails] at hc
  | Res.err =>
    have hgen : generate_cover W H env = none := by
      unfold generate_cover
      rw [hb]
    refine ⟨by rw [hgen]; simp [resFails], ?_, ?_, ?_, ?_, ?_, ?_, ?_⟩
    · intro _; rw [hgen]; rfl
    · intro _; rw [hgen]; exact ⟨rfl, rfl, rfl⟩
    · intro _; rw [hgen]; rfl
    · intro _; rw [hgen]; rfl
    · intro _; rw [hgen]; rfl
    · intro _; rw [hgen]; rfl
    · intro hc; simp [resFails] at hc
  | Res.ok bw bh =>
    rw [hb, bgDimsPos] at hbg
    have hbh : bh ≠ 0 := by simpa using hbg
    refine ⟨?_, ?_, ?_, ?_, ?_, ?_, ?_, ?_⟩
    · rw [layersOf_generate W H env bw bh hb hbh hH]
      simp [resFails]
    · intro hf
      rw [tagCount, tagSel_taiji W H env bw bh hb hbh hH,
        taijiLayers_fail W H env.taiji hf]
      rfl
    · intro hf
      refine ⟨?_, ?_, ?_⟩
      · rw [tagCount, tagSel_qimen W H env bw bh hb hbh hH,
          qimenBlock_fail W H env hf]
        rfl
      · rw [tagCount, tagSel_fog W H env bw bh hb hbh hH,
          qimenBlock_fail W H env hf]
        rfl
      · rw [tagCount, tagSel_circle W H env bw bh hb hbh hH,
          qimenBlock_fail W H env hf]
        rfl
    · intro hf
      rw [tagCount, tagSel_fog W H env bw bh hb hbh hH,
        qimenBlock_fog_fail W H env hf]
      rfl
    · intro hf
      rw [tagCount, tagSel_circle W H env bw bh hb hbh hH,
        qimenBlock_circ_fail W H env hf]
      rfl
    · intro hf
      rw [tagCount, tagSel_footer W H env bw bh hb hbh hH,
        footerLayers_fail W H env.footer hf]
      rfl
    · intro hor
      unfold idxTagCount
      rw [idxSel_player W H env bw bh hb hbh hH i]
      rcases hor with hget | hget
      · have h0 := playersLayers_fail_idx W H env.players 0 i PlayerRes.missing hget rfl
        simp only [Nat.zero_add] at h0
        rw [h0]
        rfl
      · have h0 := playersLayers_fail_idx W H env.players 0 i PlayerRes.err hget rfl
        simp only [Nat.zero_add] at h0
        rw [h0]
        rfl
    · intro _ hget hph
      unfold idxTagCount
      rw [idxSel_player W H env bw bh hb hbh hH i]
      have h0 := playersLayers_rembg_idx W H env.players 0 i pw0 ph0 hget hph
      simp only [Nat.zero_add] at h0
      rw [h0]
      simp [playerLayer, hph]

theorem compose_abort_iff_fail_soft_witness :
    (generate_cover 1024 1536 envFailSoft = none ↔ resFails envFailSoft.bg = true)
  ∧ tagCount (generate_cover 1024 1536 envFailSoft) Tag.taiji = 0
  ∧ tagCount (generate_cover 1024 1536 envFailSoft) Tag.qimen = 0
  ∧ tagCount (generate_cover 1024 1536 envFailSoft) Tag.fog = 0
  ∧ tagCount (generate_cover 1024 1536 envFailSoft) Tag.circle = 0
  ∧ tagCount (generate_cover 1024 1536 envFailSoft) Tag.footer = 0
  ∧ idxTagCount (generate_cover 1024 1536 envFailSoft) Tag.player 0 = 0 := by
  have h := compose_abort_iff_fail_soft 1024 1536 envFailSoft 0 0 0 (by decide) (by decide)
  exact ⟨h.1, h.2.1 (by decide), (h.2.2.1 (by decide)).1, h.2.2.2.1 (by decide),
    h.2.2.2.2.1 (by decide), h.2.2.2.2.2.1 (by decide),
    h.2.2.2.2.2.2.1 (Or.inl (by decide))⟩

/-- C1 (counterexample): with a sound background and a subject whose
background-removal transform fails while the file itself decodes, the
error is caught and composition completes, but the subject layer is NOT
skipped — the original image is composited (one player layer at index 1),
contradicting the claim that every caught per-layer failure in steps 2-9
skips the layer. -/
theorem compose_rembg_layer_not_skipped :
    envRembgKept.players.get? 1 = some (PlayerRes.rembgFail 250 552)
  ∧ (generate_cover 1024 1536 envRembgKept).isSome = true
  ∧ ¬ idxTagCount (generate_cover 1024 1536 envRembgKept) Tag.player 1 = 0 := by
  refine ⟨rfl, by decide, by decide⟩

/-- C2 (counterexample): when only the home-team slot resolves (the away
team has no matching file), `get_player_paths` compacts the list, so the
home cutout lands at enumeration index 0 and is placed LEFT-aligned with
its left edge at `int(0.01 * 1024) = 10` — not right-aligned: its left
edge is not the right-aligned position `int(0.99*1024 - 441) = 572` and
its right edge `10 + 441 = 451` is not at 99% of the canvas width
(`int(0.99 * 1024) = 1013`). -/
theorem compose_home_slot_left_aligned :
    (tagSel (composeWithPlayers 1024 1536 envSoloBase none (some (PlayerRes.ok 400 500)))
        Tag.player).map (fun l => l.x) = [(10 : Int)]
  ∧ (10 : Int) ≠ 572
  ∧ (tagSel (composeWithPlayers 1024 1536 envSoloBase none (some (PlayerRes.ok 400 500)))
        Tag.player).map (fun l => l.x + (l.w : Int)) = [(451 : Int)]
  ∧ (451 : Int) ≠ 1013 := by
  refine ⟨by decide, by decide, by decide, by decide⟩

/-- C2 (amended): when exactly one of the two subject slots resolves (the
other team has no matching file), composition succeeds with exactly one
subject cutout placed, and that cutout is always LEFT-aligned (left edge
at 1% of the canvas width) — whichever slot resolved — because
`get_player_paths` compacts the list and placement goes by list index. -/
theorem compose_single_subject_left (W H : Nat) (env0 : Env)
    (a b : Option PlayerRes) (bw bh w h : Nat)
    (hbg : env0.bg = Res.ok bw bh) (hbh : bh ≠ 0) (hH : H ≠ 0) (hh : h ≠ 0)
    (hone : (a = none ∧ b = some (PlayerRes.ok w h))
          ∨ (b = none ∧ a = some (PlayerRes.ok w h))) :
    (composeWithPlayers W H env0 a b).isSome = true
  ∧ (tagSel (composeWithPlayers W H env0 a b) Tag.player).map (fun l => l.x)
      = [((W / 100 : Nat) : Int)] := by
  have hsolo : composeWithPlayers W H env0 a b
      = generate_cover W H { env0 with players := [PlayerRes.ok w h] } := by
    rcases hone with ⟨ha, hb2⟩ | ⟨hb2, ha⟩ <;>
      (subst ha; subst hb2; rfl)
  rw [hsolo]
  have hgen := layersOf_generate W H { env0 with players := [PlayerRes.ok w h] }
    bw bh hbg hbh hH
  constructor
  · rw [hgen]
    rfl
  · rw [tagSel_player W H { env0 with players := [PlayerRes.ok w h] } bw bh hbg hbh hH]
    simp [playersLayers, playerLayer, hh]

theorem compose_single_subject_left_witness :
    (composeWithPlayers 1024 1536 envSoloBase (some (PlayerRes.ok 400 500)) none).isSome = true
  ∧ (tagSel (composeWithPlayers 1024 1536 envSoloBase (some (PlayerRes.ok 400 500)) none)
      Tag.player).map (fun l => l.x) = [(10 : Int)] := by
  have h := compose_single_subject_left 1024 1536 envSoloBase
    (some (PlayerRes.ok 400 500)) none 800 1200 400 500 rfl (by decide) (by decide)
    (by decide) (Or.inr ⟨rfl, rfl⟩)
  exact ⟨h.1, h.2⟩

/-- A successfully loaded diagram produces the qimen layer at its
thumbnail size followed by the nested fog and ring layers. -/
theorem qimenBlock_ok (W H : Nat) (env : Env) (qw0 qh0 : Nat)
    (hq : env.qimen = some (Res.ok qw0 qh0)) (hqh : qh0 ≠ 0) :
    qimenBlock W H env =
      { tag := Tag.qimen,
        x := Int.fdiv ((W : Int) - (thumbFit qw0 qh0 (W * 5 / 10)).1) 2,
        y := Int.fdiv ((H : Int) - (thumbFit qw0 qh0 (W * 5 / 10)).2) 2 - (H * 9 / 100 : Nat),
        w := (thumbFit qw0 qh0 (W * 5 / 10)).1,
        h := (thumbFit qw0 qh0 (W * 5 / 10)).2 }
      :: (fogLayers (Int.fdiv ((W : Int) - (thumbFit qw0 qh0 (W * 5 / 10)).1) 2)
            (Int.fdiv ((H : Int) - (thumbFit qw0 qh0 (W * 5 / 10)).2) 2 - (H * 9 / 100 : Nat))
            (thumbFit qw0 qh0 (W * 5 / 10)).1 (thumbFit qw0 qh0 (W * 5 / 10)).2 env.fog
          ++ circBlock (Int.fdiv ((W : Int) - (thumbFit qw0 qh0 (W * 5 / 10)).1) 2)
              (Int.fdiv ((H : Int) - (thumbFit qw0 qh0 (W * 5 / 10)).2) 2 - (H * 9 / 100 : Nat))
              (thumbFit qw0 qh0 (W * 5 / 10)).1 (thumbFit qw0 qh0 (W * 5 / 10)).2
              env.circle env.circleCells) := by
  unfold qimenBlock
  rw [hq]
  simp [hqh]

/-- One ring is drawn per in-range cell number. -/
theorem ringAux_length (qx qy : Int) (cw ch s : Nat) (i : Nat) (cs : List Int) :
    (ringAux qx qy cw ch s i cs).length
      = (cs.filter (fun c => decide (1 ≤ c ∧ c ≤ 9))).length := by
  induction cs generalizing i with
  | nil => rfl
  | cons c cs ih =>
    unfold ringAux
    rw [List.length_append, ih (i + 1)]
    by_cases hc : 1 ≤ c ∧ c ≤ 9
    · rw [if_pos hc]
      simp [List.filter_cons, hc, Nat.add_comm]
    · rw [if_neg hc]
      simp [List.filter_cons, hc]

/-- Ring count of the circle step for a loaded circle image. -/
theorem circBlock_length (qx qy : Int) (qw qh cw0 ch0 : Nat) (cells : List Int) :
    (circBlock qx qy qw qh (some (Res.ok cw0 ch0)) cells).length
      = (cells.filter (fun c => decide (1 ≤ c ∧ c ≤ 9))).length := by
  unfold circBlock
  by_cases hcl : cells = []
  · subst hcl
    rfl
  · rw [if_neg hcl, ringAux_length]

/-- Selecting the circle layers out of a loaded qimen block yields exactly
the ring layers of step 3.6. -/
theorem qimenBlock_circle_filter (W H : Nat) (env : Env) (qw0 qh0 : Nat)
    (hq : env.qimen = some (Res.ok qw0 qh0)) (hqh : qh0 ≠ 0) :
    (qimenBlock W H env).filter (fun l => l.tag == Tag.circle)
      = circBlock (Int.fdiv ((W : Int) - (thumbFit qw0 qh0 (W * 5 / 10)).1) 2)
          (Int.fdiv ((H : Int) - (thumbFit qw0 qh0 (W * 5 / 10)).2) 2 - (H * 9 / 100 : Nat))
          (thumbFit qw0 qh0 (W * 5 / 10)).1 (thumbFit qw0 qh0 (W * 5 / 10)).2
          env.circle env.circleCells := by
  rw [qimenBlock_ok W H env qw0 qh0 hq hqh]
  rw [List.filter_cons]
  simp only [List.filter_append]
  rw [filter_tag_nil _ Tag.circle (fun l hl => by simp [mem_fogLayers hl])]
  rw [List.filter_eq_self.mpr (fun l hl => by simp [(mem_circBlock hl).1])]
  simp

/-- C3 (counterexample): with the diagram placed at 21x21 the grid cells
are 7x7; the code sizes the ring to `int(int(7 * 0.8) * 1.728) =
int(5 * 1.728) = 8`, while the claimed single-truncation formula gives
`floor(0.8 * 7 * 1.728) = floor(9.6768) = 9`. -/
theorem compose_ring_size_double_truncation :
    (tagSel (generate_cover 1024 1536 envRingSize) Tag.qimen).map (fun l => (l.w, l.h))
      = [(21, 21)]
  ∧ (tagSel (generate_cover 1024 1536 envRingSize) Tag.circle).map (fun l => (l.w, l.h))
      = [(8, 8)]
  ∧ ringSizeSpec 7 7 = 9
  ∧ (8 : Nat) ≠ 9 := by
  refine ⟨by decide, by decide, by decide, by decide⟩

/-- C3 (amended): every ring is drawn on the 3x3 grid of the diagram's
placed box with cell size placed-width/3 by placed-height/3 (integer
division), and is resized to a square of side
`int(int(0.8 * min(cellWidth, cellHeight)) * 1.728)` — the code truncates
after the 0.8 scaling and again after the 1.728 scaling, rather than
taking one floor of the full product. -/
theorem compose_grid_and_ring_size (W H : Nat) (env : Env)
    (bw bh qw0 qh0 cw0 ch0 : Nat)
    (hbg : env.bg = Res.ok bw bh) (hbh : bh ≠ 0) (hH : H ≠ 0)
    (hq : env.qimen = some (Res.ok qw0 qh0)) (hqh : qh0 ≠ 0)
    (hc : env.circle = some (Res.ok cw0 ch0)) :
    (tagSel (generate_cover W H env) Tag.qimen).map (fun l => (l.w, l.h))
      = [thumbFit qw0 qh0 (W * 5 / 10)]
  ∧ ((tagSel (generate_cover W H env) Tag.circle).all (fun l =>
       l.w == ringSizeCode ((thumbFit qw0 qh0 (W * 5 / 10)).1 / 3)
                           ((thumbFit qw0 qh0 (W * 5 / 10)).2 / 3)
       && l.h == ringSizeCode ((thumbFit qw0 qh0 (W * 5 / 10)).1 / 3)
                           ((thumbFit qw0 qh0 (W * 5 / 10)).2 / 3))) = true
  ∧ (tagSel (generate_cover W H env) Tag.circle).length
      = (env.circleCells.filter (fun c => decide (1 ≤ c ∧ c ≤ 9))).length := by
  refine ⟨?_, ?_, ?_⟩
  · rw [tagSel_qimen W H env bw bh hbg hbh hH, qimenBlock_ok W H env qw0 qh0 hq hqh]
    rw [List.filter_cons]
    simp only [List.filter_append]
    rw [filter_tag_nil _ Tag.qimen (fun l hl => by simp [mem_fogLayers hl])]
    rw [filter_tag_nil _ Tag.qimen (fun l hl => by simp [(mem_circBlock hl).1])]
    simp
  · rw [tagSel_circle W H env bw bh hbg hbh hH, qimenBlock_ok W H env qw0 qh0 hq hqh]
    rw [List.all_eq_true]
    intro l hl
    have hmem := (List.mem_filter.mp hl).1
    have hpred := (List.mem_filter.mp hl).2
    rcases List.mem_cons.mp hmem with heq | hrest
    · rw [heq] at hpred
      simp at hpred
    · rcases List.mem_append.mp hrest with hfog | hcirc
      · rw [mem_fogLayers hfog] at hpred
        simp at hpred
      · obtain ⟨_, hw, hhh, _, _, _⟩ := mem_circBlock hcirc
        rw [hw, hhh]
        simp
  · rw [tagSel_circle W H env bw bh hbg hbh hH,
      qimenBlock_circle_filter W H env qw0 qh0 hq hqh, hc, circBlock_length]

theorem compose_grid_and_ring_size_witness :
    (tagSel (generate_cover 1024 1536 envRingSize) Tag.qimen).map (fun l => (l.w, l.h))
      = [thumbFit 21 21 (1024 * 5 / 10)]
  ∧ ((tagSel (generate_cover 1024 1536 envRingSize) Tag.circle).all (fun l =>
       l.w == ringSizeCode ((thumbFit 21 21 (1024 * 5 / 10)).1 / 3)
                           ((thumbFit 21 21 (1024 * 5 / 10)).2 / 3)
       && l.h == ringSizeCode ((thumbFit 21 21 (1024 * 5 / 10)).1 / 3)
                           ((thumbFit 21 21 (1024 * 5 / 10)).2 / 3))) = true
  ∧ (tagSel (generate_cover 1024 1536 envRingSize) Tag.circle).length
      = (envRingSize.circleCells.filter (fun c => decide (1 ≤ c ∧ c ≤ 9))).length :=
  compose_grid_and_ring_size 1024 1536 envRingSize 800 1200 21 21 5 5
    rfl (by decide) (by decide) rfl (by decide) rfl

/-- C4 (counterexample): a subject whose background removal fails while
its file decodes is NOT omitted from the composite — `remove_background`
falls back to the original image and the subject layer is composited. -/
theorem compose_rembg_subject_not_omitted :
    envRembgSolo.players.get? 0 = some (PlayerRes.rembgFail 300 460)
  ∧ (generate_cover 1024 1536 envRembgSolo).isSome = true
  ∧ ¬ tagCount (generate_cover 1024 1536 envRembgSolo) Tag.player = 0 := by
  refine ⟨rfl, by decide, by decide⟩

/-- C4 (amended): a missing subject file is caught and that subject's
layer is omitted; a subject whose background removal fails but whose file
decodes is caught and composited from the original image (not omitted);
neither failure is fatal to the composition. -/
theorem compose_subject_missing_skipped (W H : Nat) (env : Env) (bw bh i pw0 ph0 : Nat)
    (hbg : env.bg = Res.ok bw bh) (hbh : bh ≠ 0) (hH : H ≠ 0) :
    (generate_cover W H env).isSome = true
  ∧ (env.players.get? i = some PlayerRes.missing →
      idxTagCount (generate_cover W H env) Tag.player i = 0)
  ∧ (env.players.get? i = some (PlayerRes.rembgFail pw0 ph0) → ph0 ≠ 0 →
      idxTagCount (generate_cover W H env) Tag.player i = 1) := by
  refine ⟨?_, ?_, ?_⟩
  · rw [layersOf_generate W H env bw bh hbg hbh hH]
    rfl
  · intro hget
    unfold idxTagCount
    rw [idxSel_player W H env bw bh hbg hbh hH i]
    have h0 := playersLayers_fail_idx W H env.players 0 i PlayerRes.missing hget rfl
    simp only [Nat.zero_add] at h0
    rw [h0]
    rfl
  · intro hget hph
    unfold idxTagCount
    rw [idxSel_player W H env bw bh hbg hbh hH i]
    have h0 := playersLayers_rembg_idx W H env.players 0 i pw0 ph0 hget hph
    simp only [Nat.zero_add] at h0
    rw [h0]
    simp [playerLayer, hph]

theorem compose_subject_missing_skipped_witness :
    (generate_cover 1024 1536 envSubjMissing).isSome = true
  ∧ idxTagCount (generate_cover 1024 1536 envSubjMissing) Tag.player 0 = 0 := by
  have h := compose_subject_missing_skipped 1024 1536 envSubjMissing 640 960 0 0 0
    rfl (by decide) (by decide)
  exact ⟨h.1, h.2.1 rfl⟩

/-- C5 (counterexample): even with the bundled hand-lettering font
resolvable (the title line does use it), the date label is rendered with
the basic built-in font — `ImageFont.load_default()` unconditionally, no
fallback chain — refuting the claimed first choice for the date. -/
theorem compose_date_font_not_stxingka :
    resolveTitleFont envFontAvail.fontCfg = Font.stxingka
  ∧ (tagSel (generate_cover 1024 1536 envFontAvail) Tag.date).map (fun l => l.font)
      = [some Font.builtin]
  ∧ (tagSel (generate_cover 1024 1536 envFontAvail) Tag.title).map (fun l => l.font)
      = [some Font.stxingka]
  ∧ some Font.builtin ≠ some Font.stxingka := by
  refine ⟨rfl, by decide, by decide, by decide⟩

/-- C5 (amended): the date label is always rendered with the basic
built-in font (the hand-lettering fallback chain applies only to the title
lines); the auto-cropped date raster is scaled by exactly 3x and
composited with its top-left corner at (2% of W, 2% of H). -/
theorem compose_date_label_layout (W H : Nat) (env : Env) (bw bh : Nat)
    (hbg : env.bg = Res.ok bw bh) (hbh : bh ≠ 0) (hH : H ≠ 0) :
    (tagSel (generate_cover W H env) Tag.date).map
        (fun l => (l.font, l.x, l.y, l.w, l.h))
      = [(some Font.builtin, ((W * 2 / 100 : Nat) : Int), ((H * 2 / 100 : Nat) : Int),
          3 * env.dateW, 3 * env.dateH)] := by
  rw [tagSel_date W H env bw bh hbg hbh hH]
  simp [dateLayer]

theorem compose_date_label_layout_witness :
    (tagSel (generate_cover 1024 1536 envFontAvail) Tag.date).map
        (fun l => (l.font, l.x, l.y, l.w, l.h))
      = [(some Font.builtin, ((1024 * 2 / 100 : Nat) : Int), ((1536 * 2 / 100 : Nat) : Int),
          3 * envFontAvail.dateW, 3 * envFontAvail.dateH)] :=
  compose_date_label_layout 1024 1536 envFontAvail 800 1200 rfl (by decide) (by decide)

/-- C6: whenever rings are drawn, each requested in-range cell yields one
ring; every ring — including the second list entry (index 1), which is
rotated by -90 degrees with output-size expansion and then force-resized
back — has the same final square dimensions, and exactly the ring at list
index 1 carries the rotation. -/
theorem compose_second_ring_rotated_same_size (W H : Nat) (env : Env)
    (bw bh qw0 qh0 cw0 ch0 : Nat)
    (hbg : env.bg = Res.ok bw bh) (hbh : bh ≠ 0) (hH : H ≠ 0)
    (hq : env.qimen = some (Res.ok qw0 qh0)) (hqh : qh0 ≠ 0)
    (hc : env.circle = some (Res.ok cw0 ch0)) :
    ((tagSel (generate_cover W H env) Tag.circle).all (fun l =>
        l.w == ringSizeCode ((thumbFit qw0 qh0 (W * 5 / 10)).1 / 3)
                            ((thumbFit qw0 qh0 (W * 5 / 10)).2 / 3)
        && l.h == l.w
        && (l.rotated == (l.idx == 1)))) = true
  ∧ (tagSel (generate_cover W H env) Tag.circle).length
      = (env.circleCells.filter (fun c => decide (1 ≤ c ∧ c ≤ 9))).length := by
  constructor
  · rw [tagSel_circle W H env bw bh hbg hbh hH,
      qimenBlock_circle_filter W H env qw0 qh0 hq hqh]
    rw [List.all_eq_true]
    intro l hl
    obtain ⟨_, hw, hhh, hrot, _, _⟩ := mem_circBlock hl
    rw [hw, hhh, hrot]
    simp
  · rw [tagSel_circle W H env bw bh hbg hbh hH,
      qimenBlock_circle_filter W H env qw0 qh0 hq hqh, hc, circBlock_length]

theorem compose_second_ring_rotated_same_size_witness :
    ((tagSel (generate_cover 1024 1536 envRings) Tag.circle).all (fun l =>
        l.w == ringSizeCode ((thumbFit 600 600 (1024 * 5 / 10)).1 / 3)
                            ((thumbFit 600 600 (1024 * 5 / 10)).2 / 3)
        && l.h == l.w
        && (l.rotated == (l.idx == 1)))) = true
  ∧ (tagSel (generate_cover 1024 1536 envRings) Tag.circle).length
      = (envRings.circleCells.filter (fun c => decide (1 ≤ c ∧ c ≤ 9))).length :=
  compose_second_ring_rotated_same_size 1024 1536 envRings 800 1200 600 600 64 64
    rfl (by decide) (by decide) rfl (by decide) rfl

/-- C7: with a resolvable background the written image has exactly the
configured canvas dimensions and is encoded at quality 95, and the flatten
step composites the finished RGBA canvas over opaque white discarding the
alpha channel: every pixel of a flattened raster has alpha 255 and the
raster keeps its dimensions. -/
theorem compose_canvas_size_opaque (W H : Nat) (env : Env) (bw bh : Nat) (img : PixImg)
    (hbg : env.bg = Res.ok bw bh) (hbh : bh ≠ 0) (hH : H ≠ 0) :
    (generate_cover W H env).map Output.width = some W
  ∧ (generate_cover W H env).map Output.height = some H
  ∧ (generate_cover W H env).map Output.quality = some 95
  ∧ ((flattenOverWhite img).rows.all (fun row => row.all (fun p => p.a == 255))) = true
  ∧ (flattenOverWhite img).rows.map List.length = img.rows.map List.length := by
  have hgen := layersOf_generate W H env bw bh hbg hbh hH
  refine ⟨by rw [hgen]; rfl, by rw [hgen]; rfl, by rw [hgen]; rfl, ?_, ?_⟩
  · rw [List.all_eq_true]
    intro row hrow
    rw [flattenOverWhite] at hrow
    simp only [List.mem_map] at hrow
    obtain ⟨row0, _, hr⟩ := hrow
    subst hr
    rw [List.all_eq_true]
    intro p hp
    simp only [List.mem_map] at hp
    obtain ⟨p0, _, hp2⟩ := hp
    subst hp2
    rfl
  · rw [flattenOverWhite]
    simp [List.map_map, Function.comp]

theorem compose_canvas_size_opaque_witness :
    (generate_cover 1024 1536 envCanvas).map Output.width = some 1024
  ∧ (generate_cover 1024 1536 envCanvas).map Output.height = some 1536
  ∧ (generate_cover 1024 1536 envCanvas).map Output.quality = some 95
  ∧ ((flattenOverWhite imgMixed).rows.all (fun row => row.all (fun p => p.a == 255))) = true
  ∧ (flattenOverWhite imgMixed).rows.map List.length = imgMixed.rows.map List.length :=
  compose_canvas_size_opaque 1024 1536 envCanvas 512 768 imgMixed
    rfl (by decide) (by decide)

/-- C9: both title lines are horizontally centred using each line's own
rendered width, the first line's top edge is at int(0.095 * H), and the
second line's top edge sits exactly the fixed pitch font size + 10 =
70 + 10 units lower, regardless of the two rendered widths. -/
theorem compose_title_lines_layout (W H : Nat) (env : Env) (bw bh w1 h1 w2 h2 : Nat)
    (hbg : env.bg = Res.ok bw bh) (hbh : bh ≠ 0) (hH : H ≠ 0)
    (ht : env.titleLines = [(w1, h1), (w2, h2)]) :
    (tagSel (generate_cover W H env) Tag.title).map (fun l => (l.x, l.y))
      = [(Int.fdiv ((W : Int) - w1) 2, ((H * 95 / 1000 : Nat) : Int)),
         (Int.fdiv ((W : Int) - w2) 2, ((H * 95 / 1000 + (70 + 10) : Nat) : Int))] := by
  rw [tagSel_title W H env bw bh hbg hbh hH, titleLayers, ht]
  simp [titleAux]

theorem compose_title_lines_layout_witness :
    (tagSel (generate_cover 1024 1536 envTitles) Tag.title).map (fun l => (l.x, l.y))
      = [((262 : Int), (145 : Int)), ((202 : Int), (225 : Int))] := by
  have h := compose_title_lines_layout 1024 1536 envTitles 800 1200 500 80 620 90
    rfl (by decide) (by decide) rfl
  simpa using h

/-- C8: asset materialization is the identity on local (non-remote) paths,
leaving the cache untouched; on a remote reference that parses into bucket
and blob parts, the first call returns the cache-directory path keyed by
the blob basename after at most one fetch, and a second call on the same
reference returns the same path with the cache state unchanged — in
particular no second fetch is performed. -/
theorem materialize_contract (cacheDir p bkt blob : List Char) (c : Cache) :
    (isGcsChars p = false → download_from_gcs cacheDir p c = (Except.ok p, c))
  ∧ (isGcsChars p = true → splitFirstSlash (stripGs p) = some (bkt, blob) →
      (download_from_gcs cacheDir p ((download_from_gcs cacheDir p c).2)).1
        = (download_from_gcs cacheDir p c).1
      ∧ (download_from_gcs cacheDir p ((download_from_gcs cacheDir p c).2)).2
        = (download_from_gcs cacheDir p c).2
      ∧ (download_from_gcs cacheDir p c).1
        = Except.ok (cacheDir ++ ('/' :: basenameChars blob))
      ∧ ((download_from_gcs cacheDir p c).2).fetches ≤ c.fetches + 1) := by
  constructor
  · intro hlocal
    simp [download_from_gcs, hlocal]
  · intro hremote hparse
    by_cases hmem : basenameChars blob ∈ c.entries
    · simp [download_from_gcs, hremote, hparse, hmem]
    · simp [download_from_gcs, hremote, hparse, hmem]

theorem materialize_contract_witness :
    download_from_gcs cacheDirW localPathW ⟨[], 0⟩ = (Except.ok localPathW, ⟨[], 0⟩)
  ∧ (download_from_gcs cacheDirW gcsPathW
        ((download_from_gcs cacheDirW gcsPathW ⟨[], 0⟩).2)).1
      = (download_from_gcs cacheDirW gcsPathW ⟨[], 0⟩).1
  ∧ (download_from_gcs cacheDirW gcsPathW
        ((download_from_gcs cacheDirW gcsPathW ⟨[], 0⟩).2)).2
      = (download_from_gcs cacheDirW gcsPathW ⟨[], 0⟩).2
  ∧ (download_from_gcs cacheDirW gcsPathW ⟨[], 0⟩).1
      = Except.ok (cacheDirW ++ ('/' :: basenameChars ['p', 'l', '/', 'a', '.', 'p', 'n', 'g'])) := by
  refine ⟨(materialize_contract cacheDirW localPathW [] [] ⟨[], 0⟩).1 (by decide), ?_⟩
  have h := (materialize_contract cacheDirW gcsPathW ['b', 'k', 't']
    ['p', 'l', '/', 'a', '.', 'p', 'n', 'g'] ⟨[], 0⟩).2 (by decide) (by decide)
  exact ⟨h.1, h.2.1, h.2.2.1⟩

/-- C10: when the alpha channel holds no non-transparent pixel,
`alpha.getbbox()` returns `None` and `crop_to_content` returns the image
unchanged instead of failing. -/
theorem crop_to_content_blank_id (img : PixImg) (h : allTransparent img = true) :
    crop_to_content img = img := by
  simp [crop_to_content, alphaBBox, h]

theorem crop_to_content_blank_id_witness :
    allTransparent imgBlank = true ∧ crop_to_content imgBlank = imgBlank :=
  ⟨by decide, crop_to_content_blank_id imgBlank (by decide)⟩

end NbaCover
